import Mathlib

/-!
# Verification of the ansible-automation deployment and reconciliation core

Shallow embedding of the algorithmic core of the repository:

* `scripts/deploy_helper.py` — progressive deployment controller
  (`run_ansible_with_retry`, `deploy_stage`, `progressive_deployment`,
  `resume_deployment`);
* `scripts/state_reconciliation.py` — snapshot diffing
  (`compare_snapshots` with `_compare_facts` / `_compare_configs` /
  `_compare_services`) and `check_multi_node_consistency`;
* `scripts/test_idempotence.py` — `IdempotenceTester._analyze_idempotence`.

The external executor (`ansible-playbook` / `ansible` subprocess calls) is
out of scope per the spec; its observable outcomes (exit code, stdout,
stderr, raised exceptions) are supplied as oracles indexed by attempt.
File-system and wall-clock effects (timestamps, JSON (de)serialisation of
well-formed artifacts) are represented by the structured data they carry.
-/

namespace AnsibleAutomation

/-! ## Association-list helpers

Python `dict`s keyed by strings appear throughout the scripts (state
stages, per-host maps).  They are modelled as ordered association lists.
-/

/-- First-match lookup, as used for "does `<host>_configs.json` exist in
this directory" style access where keys are unique file stems. -/
def lookupStr {α : Type} : List (String × α) → String → Option α
  | [], _ => none
  | (k, v) :: rest, key => if key = k then some v else lookupStr rest key

/-- The keys of an association list. -/
def keysOf {α : Type} (l : List (String × α)) : List String :=
  l.map Prod.fst

/-- Python dict construction from a list of key/value pairs
(`{c['file']: c['hash'] for c in configs}`): a later pair overrides an
earlier one. -/
def pyDictGet {α : Type} (l : List (String × α)) (k : String) : Option α :=
  lookupStr l.reverse k

/-- Python dict item assignment `d[k] = v`: replaces the value in place if
the key exists, otherwise appends. -/
def pyDictSet {α : Type} (l : List (String × α)) (k : String) (v : α) :
    List (String × α) :=
  if (keysOf l).contains k then
    l.map (fun p => if p.1 = k then (k, v) else p)
  else
    l ++ [(k, v)]

theorem lookupStr_eq_some_of_mem {α : Type} {k : String} {v : α} :
    ∀ {l : List (String × α)}, (k, v) ∈ l → (keysOf l).Nodup →
      lookupStr l k = some v := by
  intro l
  induction l with
  | nil => intro hmem _; cases hmem
  | cons hd tl ih =>
    intro hmem hnd
    rw [keysOf, List.map_cons, List.nodup_cons] at hnd
    obtain ⟨hnotin, hnd'⟩ := hnd
    rcases List.mem_cons.mp hmem with h | h
    · subst h
      simp [lookupStr]
    · have hk : k ≠ hd.1 := by
        intro hkeq
        apply hnotin
        rw [← hkeq]
        exact List.mem_map_of_mem Prod.fst h
      simp only [lookupStr, if_neg hk]
      exact ih h hnd'

theorem mem_of_lookupStr_eq_some {α : Type} {k : String} {v : α} :
    ∀ {l : List (String × α)}, lookupStr l k = some v → (k, v) ∈ l := by
  intro l
  induction l with
  | nil => intro h; simp [lookupStr] at h
  | cons hd tl ih =>
    intro h
    by_cases hk : k = hd.1
    · simp only [lookupStr, if_pos hk] at h
      have hkv : (k, v) = hd := by
        cases hd
        simp_all
      rw [hkv]
      exact List.mem_cons_self _ _
    · simp only [lookupStr, if_neg hk] at h
      exact List.mem_cons_of_mem _ (ih h)

theorem lookupStr_isSome_of_mem {α : Type} {k : String} {v : α} :
    ∀ {l : List (String × α)}, (k, v) ∈ l →
      ∃ w, lookupStr l k = some w := by
  intro l
  induction l with
  | nil => intro hmem; cases hmem
  | cons hd tl ih =>
    intro hmem
    by_cases hk : k = hd.1
    · exact ⟨hd.2, by simp [lookupStr, hk]⟩
    · rcases List.mem_cons.mp hmem with h | h
      · exact absurd (congrArg Prod.fst h) hk
      · rcases ih h with ⟨w, hw⟩
        exact ⟨w, by simp [lookupStr, hk, hw]⟩

/-! ## Executor gateway outcomes

`run_ansible_with_retry` (deploy_helper.py lines 284-357) invokes the
external executor once per attempt.  The observable outcome of one
synchronous invocation (`subprocess.run(..., capture_output=True,
check=True, timeout=timeout + 60)`, lines 325-331):

* the subprocess terminated within the wrapper deadline and
  `subprocess.run` observed its return code, stdout and stderr
  (`completed`) — with `check=True` a non-zero return code makes
  `subprocess.run` raise `CalledProcessError`;
* the wrapper deadline fired (`subprocess.TimeoutExpired`, `timedOut`);
* any other exception (`raised`).
-/
inductive SyncExec : Type
  | completed (returncode : Int) (stdout stderr : String)
  | timedOut
  | raised
deriving DecidableEq

/-- Outcome of one asynchronous invocation: `run_ansible_async` (lines
232-282) always returns a result dict (it converts its own exceptions into
`returncode = -1` results), but `future.result(timeout=timeout + 60)`
(line 302) can itself raise, e.g. on wait timeout (`raised`). -/
inductive AsyncExec : Type
  | result (returncode : Int) (stdout stderr : String)
  | raised
deriving DecidableEq

/-- Does `needle` begin `haystack`? -/
def isPrefixChars : List Char → List Char → Bool
  | [], _ => true
  | _ :: _, [] => false
  | c :: cs, d :: ds => c == d && isPrefixChars cs ds

/-- Substring containment on character lists (Python `needle in s`). -/
def containsSub (needle : List Char) : List Char → Bool
  | [] => needle.isEmpty
  | d :: ds => isPrefixChars needle (d :: ds) || containsSub needle ds

/-- `'timeout' in s.lower() or 'timed out' in s.lower()` (lines 313 and
343): case-insensitive substring test for the two timeout keywords,
working over the string's character list. -/
def timeoutKeyword (s : String) : Bool :=
  let low := s.data.map Char.toLower
  containsSub "timeout".data low || containsSub "timed out".data low

/-- What one loop iteration of `run_ansible_with_retry` decides: return a
final verdict, or fall through to the next attempt (`continue`). -/
inductive RetryStep : Type
  | ret (b : Bool)
  | cont
deriving DecidableEq

/-- One synchronous attempt (lines 323-354).  `check=True` turns every
non-zero return code into a `CalledProcessError`, which only the trailing
`except Exception` catches (line 352), so execution returns `False` before
the `returncode`/stderr inspection of lines 333-347 can run; that branch
is therefore reachable only with `returncode = 0`. -/
def syncStep (r : SyncExec) : RetryStep :=
  match r with
  | .completed rc _ err =>
    if rc ≠ 0 then
      -- CalledProcessError → `except Exception` (line 352) → return False
      RetryStep.ret false
    else if rc = 0 then
      -- line 333: return True
      RetryStep.ret true
    else if timeoutKeyword err then
      -- lines 343-345 (dead for rc ≠ 0 because of check=True)
      RetryStep.cont
    else
      RetryStep.ret false
  | .timedOut =>
    -- line 349: except subprocess.TimeoutExpired → continue
    RetryStep.cont
  | .raised =>
    -- line 352: except Exception → return False
    RetryStep.ret false

/-- One asynchronous attempt (lines 297-321): success iff the result dict
has `returncode = 0`; otherwise continue only when stderr is non-empty and
contains a timeout keyword (line 313), else return `False`.  An exception
from `future.result` returns `False` (line 319). -/
def asyncStep (r : AsyncExec) : RetryStep :=
  match r with
  | .result rc _ err =>
    if rc = 0 then RetryStep.ret true
    else if err ≠ "" && timeoutKeyword err then RetryStep.cont
    else RetryStep.ret false
  | .raised => RetryStep.ret false

/-- The retry loop `for attempt in range(max_retries)` (lines 292-357).
Each iteration computes `timeout = base_timeout * (scaling_factor **
attempt)` (line 293) and passes it to the executor invocation; the
returned list records the timeout budget of every attempt actually made,
and the Bool is the function's return value (`False` after exhausting all
attempts, line 357). -/
def retryGo (step : Nat → RetryStep) (baseTimeout scalingFactor : Nat) :
    Nat → Nat → List Nat × Bool
  | 0, _ => ([], false)
  | fuel + 1, attempt =>
    let timeout := baseTimeout * scalingFactor ^ attempt
    match step attempt with
    | .ret b => ([timeout], b)
    | .cont =>
      let rest := retryGo step baseTimeout scalingFactor fuel (attempt + 1)
      (timeout :: rest.1, rest.2)

/-- `run_ansible_with_retry` (lines 284-357).  The executor oracles map the
attempt index to the outcome observed by that attempt's invocation.
Returns the trace of timeout budgets passed to the executor together with
the function's Bool result. -/
def run_ansible_with_retry (maxRetries baseTimeout scalingFactor : Nat)
    (asyncMode : Bool) (execS : Nat → SyncExec) (execA : Nat → AsyncExec) :
    List Nat × Bool :=
  retryGo
    (fun attempt =>
      if asyncMode then asyncStep (execA attempt) else syncStep (execS attempt))
    baseTimeout scalingFactor maxRetries 0

/-! ## Progressive deployment controller -/

/-- A stage entry of the deployment config (a YAML dict).  Fields read via
`dict.get` with a default are `Option`s so that absent keys and the
per-site defaults are both representable.  `estimated_duration` feeds the
recorded outcome's `duration` field (line 403). -/
structure StageConfig : Type where
  name : Option String
  playbook : Option String
  timeout : Option Nat
  retries : Option Nat
  asyncMode : Option Bool
  preCommands : List String
  checkLocks : Option Bool
  estimatedDuration : Option Nat
deriving DecidableEq

/-- The per-stage record written into the state's `stages` dict on success
(lines 400-405).  `completed_at` is a wall-clock timestamp and is not
modelled; `duration` and `async` are the other recorded fields. -/
structure StageOutcome : Type where
  status : String
  duration : Nat
  asyncFlag : Bool
deriving DecidableEq

/-- The deployment state JSON object.  `load_deployment_state` returns the
raw parsed dict, `{}` when the file is missing or unparsable (lines
21-29); `hasStagesKey = false` models a dict with no `stages` key, in
which case `state['stages']` raises `KeyError` while
`state.get('stages', {})` yields an empty dict.  The `last_updated`
timestamp stamped by `save_deployment_state` is wall clock and not
modelled. -/
structure DeploymentState : Type where
  hasStagesKey : Bool
  stages : List (String × StageOutcome)
deriving DecidableEq

/-- `state.get('stages', {})`. -/
def DeploymentState.stagesOrEmpty (st : DeploymentState) :
    List (String × StageOutcome) :=
  if st.hasStagesKey then st.stages else []

/-- The run-time environment one `deploy_stage` call observes:
`check_transient_locks` outcome (lines 206-230; it returns `True` exactly
when no lock file exists at its first probe, otherwise `False`), the exit
code of each `pre_command` run through `subprocess.run(cmd, shell=True)`
(line 385), and the executor oracles consumed by
`run_ansible_with_retry`. -/
structure StageEnv : Type where
  locksClear : Bool
  cmdExit : String → Int
  execS : Nat → SyncExec
  execA : Nat → AsyncExec

/-- Python truthiness of `deploy_stage`'s possible return values: `True`
(dry run, line 373), `False` (failures), and the implicit `None` of the
success path, which never reaches a `return` statement (lines 398-407 end
the function body). -/
inductive PyRet : Type
  | pyTrue
  | pyFalse
  | pyNone
deriving DecidableEq

/-- `if not success:` — `None` and `False` are both falsy. -/
def truthy : PyRet → Bool
  | .pyTrue => true
  | .pyFalse => false
  | .pyNone => false

/-- Result of a `deploy_stage` call: a returned value together with the
(possibly mutated) in-memory state and whether `save_deployment_state`
ran, or an uncaught `KeyError` from `state['stages']` (line 400) when the
loaded state has no `stages` key. -/
inductive StageResult : Type
  | ok (v : PyRet) (st : DeploymentState) (saved : Bool)
  | keyError
deriving DecidableEq

/-- Sequential `pre_commands` execution (lines 382-388): returns `false`
at the first command with a non-zero exit code. -/
def runPreCommands (cmdExit : String → Int) : List String → Bool
  | [] => true
  | cmd :: rest =>
    if cmdExit cmd ≠ 0 then false else runPreCommands cmdExit rest

/-- `deploy_stage` (deploy_helper.py lines 359-411).  Defaults at the use
sites: `timeout` 300, `retries` 3, `async` False, `check_locks` True,
`estimated_duration` 60.  On success the stage is recorded as
`completed` and the state saved; the function then falls off the end of
its body, returning `None`. -/
def deploy_stage (cfg : StageConfig) (env : StageEnv)
    (state : DeploymentState) (dryRun : Bool) : StageResult :=
  let stageName := cfg.name.getD "unknown"
  let maxRetries := cfg.retries.getD 3
  let asyncMode := cfg.asyncMode.getD false
  let stageTimeout := cfg.timeout.getD 300
  if dryRun then
    StageResult.ok PyRet.pyTrue state false
  else if cfg.checkLocks.getD true && !env.locksClear then
    -- lines 376-379: abort before any executor invocation
    StageResult.ok PyRet.pyFalse state false
  else if !runPreCommands env.cmdExit cfg.preCommands then
    -- lines 382-388: first failing pre-command aborts the stage
    StageResult.ok PyRet.pyFalse state false
  else
    let success :=
      (run_ansible_with_retry maxRetries stageTimeout 2 asyncMode
        env.execS env.execA).2
    if success then
      if state.hasStagesKey then
        let outcome : StageOutcome :=
          { status := "completed"
            duration := cfg.estimatedDuration.getD 60
            asyncFlag := asyncMode }
        StageResult.ok PyRet.pyNone
          { hasStagesKey := true
            stages := pyDictSet state.stages stageName outcome }
          true
      else
        -- state['stages'] raises KeyError when the state dict lacks the key
        StageResult.keyError
    else
      StageResult.ok PyRet.pyFalse state false

/-- The hardware-derived optimization knobs consumed by the stage merge
(lines 471-476): `timeout_multiplier` is a float in the source
(0.8/1.0/1.5/2.0 depending on the profile); it is modelled as the exact
rational `multNum / multDen`, with `int(...)` truncation as `Nat`
division. -/
structure Optimizations : Type where
  multNum : Nat
  multDen : Nat
  retryCount : Nat
  asyncEnabled : Bool
deriving DecidableEq

/-- Lines 472-476: copy the stage config, `setdefault('timeout', 300)`,
scale it by the timeout multiplier, and default `retries` / `async` from
the optimization profile. -/
def applyOptimizations (opt : Optimizations) (cfg : StageConfig) :
    StageConfig :=
  let t0 := cfg.timeout.getD 300
  { cfg with
      timeout := some (t0 * opt.multNum / opt.multDen)
      retries := some (cfg.retries.getD opt.retryCount)
      asyncMode := some (cfg.asyncMode.getD opt.asyncEnabled) }

/-- Result of `progressive_deployment`: a returned Bool together with the
state last persisted to the default state file, or an uncaught
exception (`KeyError` from `deploy_stage`, `ZeroDivisionError` from the
success-rate computation of line 497). -/
inductive DeployResult : Type
  | ret (b : Bool) (persisted : DeploymentState)
  | keyError
  | zeroDivError (persisted : DeploymentState)
deriving DecidableEq

/-- The stage loop of `progressive_deployment` (lines 461-484) followed by
the final summary (lines 486-499).  `totalStages` is the length of the
full stage list; `i` is the 1-based `enumerate` index; `persisted` tracks
the default state file, which `deploy_stage` writes on success (line 406)
and line 490 reads back. -/
def progressiveGo (envOf : Nat → StageEnv) (opt : Optimizations)
    (totalStages : Nat) :
    List StageConfig → Nat → DeploymentState → DeploymentState →
      DeployResult
  | [], _, _, persisted =>
    -- summary: completed stages are read back from the default state file
    let completed :=
      (persisted.stagesOrEmpty.filter (fun p => p.2.status == "completed")).length
    -- line 497: len(completed_stages)/total_stages*100 → ZeroDivisionError
    if totalStages = 0 then
      DeployResult.zeroDivError persisted
    else
      DeployResult.ret (completed = totalStages) persisted
  | cfg :: rest, i, state, persisted =>
    let stageName := cfg.name.getD ("stage_" ++ toString i)
    -- line 467: skip a stage already recorded as completed
    if (lookupStr state.stagesOrEmpty stageName).any
        (fun o => o.status == "completed") then
      progressiveGo envOf opt totalStages rest (i + 1) state persisted
    else
      let merged := applyOptimizations opt cfg
      match deploy_stage merged (envOf i) state false with
      | .keyError => DeployResult.keyError
      | .ok v st saved =>
        let persisted := if saved then st else persisted
        if !truthy v then
          -- line 481: a falsy deploy_stage result aborts the whole run
          DeployResult.ret false persisted
        else
          progressiveGo envOf opt totalStages rest (i + 1) st persisted

/-- `progressive_deployment` (deploy_helper.py lines 413-499), after the
config and state have been loaded.  `stages` is the parsed `stages` list
of the config file, `state` the loaded deployment state, `persisted` the
current content of the default state file, and `opt` the
hardware-derived optimization profile (lines 454-455). -/
def progressive_deployment (stages : List StageConfig)
    (envOf : Nat → StageEnv) (opt : Optimizations)
    (state persisted : DeploymentState) (dryRun : Bool) : DeployResult :=
  if dryRun then
    DeployResult.ret true persisted
  else
    progressiveGo envOf opt stages.length stages 1 state persisted

/-- Lines 526-529: the first stage whose recorded status is `failed`. -/
def findFailedStage : List (String × StageOutcome) → Option String
  | [] => none
  | (name, o) :: rest =>
    if o.status = "failed" then some name else findFailedStage rest

/-- `resume_deployment` (deploy_helper.py lines 501-565), non-dry-run
path: find the first failed stage (`return False` when none), mark it
`in_progress` and save, look its config up by name, and re-run it through
`deploy_stage`.  The `resumed_at` timestamp is wall clock and not
modelled.  Returns the Bool result together with the persisted state. -/
def resume_deployment (stages : List StageConfig) (env : StageEnv)
    (state persisted : DeploymentState) : DeployResult :=
  match findFailedStage state.stagesOrEmpty with
  | none => DeployResult.ret false persisted
  | some failedName =>
    match lookupStr state.stagesOrEmpty failedName with
    | none => DeployResult.ret false persisted
    | some outcome =>
      let st1 : DeploymentState :=
        { hasStagesKey := true
          stages :=
            pyDictSet state.stagesOrEmpty failedName
              { outcome with status := "in_progress" } }
      match
        (stages.filter (fun c => c.name == some failedName)).head? with
      | none => DeployResult.ret false st1
      | some cfg =>
        match deploy_stage cfg env st1 false with
        | .keyError => DeployResult.keyError
        | .ok v st saved =>
          let persisted2 := if saved then st else st1
          DeployResult.ret (truthy v) persisted2

/-! ## Snapshot differ (state_reconciliation.py, `compare_snapshots`)

A snapshot directory holds per-host JSON files under `facts/`, `configs/`
and `services/`.  A missing directory is `none`; otherwise the list pairs
each host (file stem) with its parsed content: the `ansible_facts` map
(values compared only for equality, so kept as strings), the list of
`{file, hash}` entries, and the list of running-service names (loaded
into a Python `set`).  Well-formed artifacts are assumed, so the
JSON-parse-error branches do not arise.
-/
structure DiffSnapshot : Type where
  factsDir : Option (List (String × List (String × String)))
  configsDir : Option (List (String × List (String × String)))
  servicesDir : Option (List (String × List String))
deriving DecidableEq

/-- A fact change entry (lines 194-199). -/
structure FactChange : Type where
  host : String
  field : String
  before : String
  after : String
deriving DecidableEq

/-- A config change entry (lines 247-253). -/
structure ConfigChange : Type where
  host : String
  file : String
  ctype : String
  beforeHash : Option String
  afterHash : Option String
deriving DecidableEq

/-- A service change entry (lines 287-298). -/
structure ServiceChange : Type where
  host : String
  service : String
  ctype : String
deriving DecidableEq

/-- Result of one `_compare_*` helper: its `changes` list, plus whether
the `{"error": "Missing ... directories"}` early return fired (lines
165-166, 212-213, 266-267). -/
structure CatResult (α : Type) : Type where
  changes : List α
  missingDirs : Bool
deriving DecidableEq

/-- The fact fields compared by `_compare_facts` (lines 182-185). -/
def factKeyFields : List String :=
  ["ansible_distribution", "ansible_kernel",
   "ansible_memtotal_mb", "ansible_processor_cores"]

/-- Inner loop of `_compare_facts` (lines 187-199): for each allow-listed
field present in both hosts' fact maps, report a change when the values
differ. -/
def factChangesForHost (host : String) (bf af : List (String × String)) :
    List String → List FactChange
  | [] => []
  | field :: rest =>
    match lookupStr bf field with
    | none => factChangesForHost host bf af rest
    | some bv =>
      match lookupStr af field with
      | none => factChangesForHost host bf af rest
      | some av =>
        if bv ≠ av then
          { host := host, field := field, before := bv, after := av } ::
            factChangesForHost host bf af rest
        else
          factChangesForHost host bf af rest

/-- Host loop of `_compare_facts` (lines 172-204): iterate the hosts of
the `before` directory, skipping any host with no file in `after`. -/
def factChangesGo (ad : List (String × List (String × String))) :
    List (String × List (String × String)) → List FactChange
  | [] => []
  | (host, bf) :: rest =>
    match lookupStr ad host with
    | none => factChangesGo ad rest
    | some af =>
      factChangesForHost host bf af factKeyFields ++ factChangesGo ad rest

/-- `_compare_facts` (lines 161-206). -/
def compare_facts (bd ad : Option (List (String × List (String × String)))) :
    CatResult FactChange :=
  match bd, ad with
  | some b, some a => { changes := factChangesGo a b, missingDirs := false }
  | _, _ => { changes := [], missingDirs := true }

/-- `set(before_hashes.keys()) | set(after_hashes.keys())` (line 233):
the deduplicated union of the files seen on either side. -/
def unionKeys (b a : List (String × String)) : List String :=
  (keysOf b ++ keysOf a).dedup

/-- The change type chosen at lines 239-245. -/
def changeTypeOf : Option String → Option String → String
  | none, _ => "added"
  | some _, none => "removed"
  | some _, some _ => "modified"

/-- One config change record (lines 247-253). -/
def mkConfigChange (host file : String) (bh ah : Option String) :
    ConfigChange :=
  { host := host, file := file, ctype := changeTypeOf bh ah,
    beforeHash := bh, afterHash := ah }

/-- Per-file loop of `_compare_configs` (lines 235-253) over the union of
file keys of one host. -/
def configChangesForFiles (host : String) (b a : List (String × String)) :
    List String → List ConfigChange
  | [] => []
  | f :: rest =>
    let bh := pyDictGet b f
    let ah := pyDictGet a f
    if bh ≠ ah then
      mkConfigChange host f bh ah :: configChangesForFiles host b a rest
    else
      configChangesForFiles host b a rest

/-- The changes `_compare_configs` emits for one host present in both
snapshots. -/
def configChangesForHost (host : String) (b a : List (String × String)) :
    List ConfigChange :=
  configChangesForFiles host b a (unionKeys b a)

/-- Host loop of `_compare_configs` (lines 219-258): iterate the hosts of
the `before` directory, skipping any host with no file in `after`. -/
def configChangesGo (ad : List (String × List (String × String))) :
    List (String × List (String × String)) → List ConfigChange
  | [] => []
  | (host, b) :: rest =>
    match lookupStr ad host with
    | none => configChangesGo ad rest
    | some a => configChangesForHost host b a ++ configChangesGo ad rest

/-- `_compare_configs` (lines 208-260). -/
def compare_configs (bd ad : Option (List (String × List (String × String)))) :
    CatResult ConfigChange :=
  match bd, ad with
  | some b, some a => { changes := configChangesGo a b, missingDirs := false }
  | _, _ => { changes := [], missingDirs := true }

/-- The changes `_compare_services` emits for one host present in both
snapshots (lines 279-298): `after - before` as `started`, `before -
after` as `stopped`; the JSON lists are loaded into Python sets, modelled
by deduplicating before the set difference. -/
def serviceChangesForHost (host : String) (b a : List String) :
    List ServiceChange :=
  ((a.dedup.filter (fun s => ¬ s ∈ b)).map
      (fun s => { host := host, service := s, ctype := "started" })) ++
    ((b.dedup.filter (fun s => ¬ s ∈ a)).map
      (fun s => { host := host, service := s, ctype := "stopped" }))

/-- Host loop of `_compare_services` (lines 273-304). -/
def serviceChangesGo (ad : List (String × List String)) :
    List (String × List String) → List ServiceChange
  | [] => []
  | (host, b) :: rest =>
    match lookupStr ad host with
    | none => serviceChangesGo ad rest
    | some a => serviceChangesForHost host b a ++ serviceChangesGo ad rest

/-- `_compare_services` (lines 262-306). -/
def compare_services (bd ad : Option (List (String × List String))) :
    CatResult ServiceChange :=
  match bd, ad with
  | some b, some a => { changes := serviceChangesGo a b, missingDirs := false }
  | _, _ => { changes := [], missingDirs := true }

/-- The differences object built by `compare_snapshots` (lines 119-159). -/
structure DiffResult : Type where
  facts : CatResult FactChange
  configs : CatResult ConfigChange
  services : CatResult ServiceChange
  totalChanges : Nat
deriving DecidableEq

/-- `compare_snapshots` (lines 119-159): run the three category
comparisons and sum their change counts. -/
def compare_snapshots (before after : DiffSnapshot) : DiffResult :=
  let f := compare_facts before.factsDir after.factsDir
  let c := compare_configs before.configsDir after.configsDir
  let s := compare_services before.servicesDir after.servicesDir
  { facts := f, configs := c, services := s,
    totalChanges :=
      f.changes.length + c.changes.length + s.changes.length }

/-! ## Consistency checker (`check_multi_node_consistency`) -/

/-- An entry of the consistency report's `issues` list: a bare string
(lines 321, 335), a field disagreement dict (lines 355-358), or a
missing-services dict (lines 385-389). -/
inductive ConsIssue : Type
  | text (s : String)
  | fieldInconsistency (field : String) (groups : List (String × List String))
  | missingServices (host : String) (missing : List String)
deriving DecidableEq

/-- The consistency report (lines 312-316, 392-395).  `summary` is `none`
on the two early returns, which leave the initial `{}` in place. -/
structure ConsistencyReport : Type where
  consistent : Bool
  issues : List ConsIssue
  summary : Option (Nat × Nat)
deriving DecidableEq

/-- The fact fields checked for cross-host agreement (lines 339-342). -/
def consistencyKeyFields : List String :=
  ["ansible_distribution", "ansible_distribution_version",
   "ansible_kernel", "ansible_python_version"]

/-- Append `host` to the group of `value`, preserving first-seen value
order (lines 348-351: `values[value].append(host)` on a dict). -/
def addToGroup (groups : List (String × List String)) (value host : String) :
    List (String × List String) :=
  if (keysOf groups).contains value then
    groups.map (fun p => if p.1 = value then (p.1, p.2 ++ [host]) else p)
  else
    groups ++ [(value, [host])]

/-- Lines 345-351: group the hosts having `field` by its observed value,
in host order. -/
def groupByValue (field : String) :
    List (String × List (String × String)) → List (String × List String)
  | [] => []
  | (host, facts) :: rest =>
    match lookupStr facts field with
    | none => groupByValue field rest
    | some v => addToGroup (groupByValue field rest) v host

/-- Lines 344-358 for one field, given the grouping computed host-first.
`groupByValue` folds from the right, so rebuild it left-to-right. -/
def groupByValueFwd (field : String)
    (hosts : List (String × List (String × String))) :
    List (String × List String) :=
  hosts.foldl
    (fun groups p =>
      match lookupStr p.2 field with
      | none => groups
      | some v => addToGroup groups v p.1)
    []

/-- The field-disagreement issues of lines 344-358, in field order. -/
def fieldIssues (allFacts : List (String × List (String × String))) :
    List String → List ConsIssue
  | [] => []
  | field :: rest =>
    let groups := groupByValueFwd field allFacts
    if groups.length > 1 then
      ConsIssue.fieldInconsistency field groups :: fieldIssues allFacts rest
    else
      fieldIssues allFacts rest

/-- Intersection accumulator of lines 378-379: `common_services &=
services`. -/
def commonServicesAux (acc : List String) :
    List (String × List String) → List String
  | [] => acc
  | (_, svcs) :: rest => commonServicesAux (acc.filter (· ∈ svcs)) rest

/-- Lines 374-379: `common_services` starts as the first host's service
set and is intersected with every further host's set. -/
def commonServices : List (String × List String) → List String
  | [] => []
  | (_, svcs) :: rest => commonServicesAux svcs rest

/-- Lines 381-390: one `missing_services` issue per host whose set lacks
part of `common_services`. -/
def missingServiceIssues (common : List String) :
    List (String × List String) → List ConsIssue
  | [] => []
  | (host, svcs) :: rest =>
    let missing := common.filter (fun s => ¬ s ∈ svcs)
    if missing ≠ [] then
      ConsIssue.missingServices host missing ::
        missingServiceIssues common rest
    else
      missingServiceIssues common rest

/-- The service-consistency issues (lines 360-390): only when the
services directory exists and more than one host has a service file. -/
def serviceIssues (servicesDir : Option (List (String × List String))) :
    List ConsIssue :=
  match servicesDir with
  | none => []
  | some allServices =>
    if allServices.length > 1 then
      missingServiceIssues (commonServices allServices) allServices
    else
      []

/-- A snapshot as seen by `check_multi_node_consistency`: the parsed
per-host `ansible_facts` maps (lines 326-332) and per-host service sets
(lines 363-370); `none` models a missing directory. -/
structure ConsSnapshot : Type where
  facts : Option (List (String × List (String × String)))
  services : Option (List (String × List String))
deriving DecidableEq

/-- `check_multi_node_consistency` (state_reconciliation.py lines
308-397).  With no facts directory the report is marked inconsistent and
returned (lines 320-323).  With fewer than two hosts' facts the issue is
appended and the report returned with `consistent` left untouched (lines
334-336).  Otherwise field disagreements and, when more than one service
set exists, missing common services each append an issue and clear
`consistent`. -/
def check_multi_node_consistency (snap : ConsSnapshot) : ConsistencyReport :=
  match snap.facts with
  | none =>
    { consistent := false,
      issues := [ConsIssue.text "No facts directory found"],
      summary := none }
  | some allFacts =>
    if allFacts.length < 2 then
      { consistent := true,
        issues := [ConsIssue.text "Need at least 2 hosts for consistency check"],
        summary := none }
    else
      let fis := fieldIssues allFacts consistencyKeyFields
      let sis := serviceIssues snap.services
      let issues := fis ++ sis
      { consistent := issues.isEmpty,
        issues := issues,
        summary := some (allFacts.length, issues.length) }

/-! ## Idempotence analyzer (test_idempotence.py, `_analyze_idempotence`) -/

/-- A state change detected by `_analyze_state_changes` (lines 240-304):
config changes carry a `file` key, service changes a `service` key;
`_analyze_idempotence` reads both via `change.get(...)`. -/
structure IdChange : Type where
  host : String
  ctype : String
  file : Option String
  service : Option String
deriving DecidableEq

/-- A changed task extracted from executor output by
`_extract_changed_tasks` (lines 306-331); only `host` and `task` feed the
task key. -/
structure TaskRec : Type where
  host : String
  task : String
deriving DecidableEq

/-- One iteration's record as assembled at lines 51-59: the executor
return code, the detected state changes, and the changed tasks.
`success` is derived as `returncode == 0` (line 54). -/
structure IterResult : Type where
  returncode : Int
  changes : List IdChange
  changedTasks : List TaskRec
deriving DecidableEq

/-- `f"{change['host']}:{change['type']}:{change.get('file',
change.get('service', ''))}"` (lines 351, 357). -/
def changeKey (c : IdChange) : String :=
  c.host ++ ":" ++ c.ctype ++ ":" ++ (c.file.getD (c.service.getD ""))

/-- `f"{task['host']}:{task['task']}"` (lines 372, 378). -/
def taskKey (t : TaskRec) : String :=
  t.host ++ ":" ++ t.task

/-- The change-key set of an iteration (lines 349-352, as a list whose
membership is what the set comparisons consult). -/
def changeKeys (r : IterResult) : List String :=
  r.changes.map changeKey

/-- The task-key set of an iteration (lines 370-373). -/
def taskKeys (r : IterResult) : List String :=
  r.changedTasks.map taskKey

/-- Python set equality of two string collections. -/
def keySetEq (a b : List String) : Bool :=
  decide ((∀ x ∈ a, x ∈ b) ∧ (∀ x ∈ b, x ∈ a))

/-- `list(x.symmetric_difference(y))` on Python sets, in a fixed order. -/
def symmDiff (a b : List String) : List String :=
  a.dedup.filter (fun x => ¬ x ∈ b) ++ b.dedup.filter (fun x => ¬ x ∈ a)

/-- An entry of the analysis `issues` list: execution failures (lines
339-344), an inconsistent change set (lines 360-367), or an inconsistent
changed-task set (lines 381-388).  Description strings and severity
labels are fixed text and not modelled. -/
inductive IdemIssue : Type
  | executionFailure (iters : List Nat)
  | inconsistentChanges (iter : Nat) (diffs : List String)
  | inconsistentTasks (iter : Nat) (diffs : List String)
deriving DecidableEq

/-- The 1-based iteration numbers of failed iterations
(`[r['iteration'] for r in failed_iterations]`, line 342; `success` is
`returncode == 0`). -/
def failedIters : List IterResult → Nat → List Nat
  | [], _ => []
  | r :: rest, i =>
    if r.returncode ≠ 0 then i :: failedIters rest (i + 1)
    else failedIters rest (i + 1)

/-- Lines 354-367: one issue per later iteration whose change-key set
differs from the first iteration's; `i` is the `enumerate(results[1:],
1)` counter, the recorded iteration number is `i + 1`. -/
def inconsistentChangesGo (firstKeys : List String) :
    List IterResult → Nat → List IdemIssue
  | [], _ => []
  | r :: rest, i =>
    if ¬ keySetEq (changeKeys r) firstKeys then
      IdemIssue.inconsistentChanges (i + 1)
          (symmDiff (changeKeys r) firstKeys) ::
        inconsistentChangesGo firstKeys rest (i + 1)
    else
      inconsistentChangesGo firstKeys rest (i + 1)

/-- Lines 375-388: the same comparison on changed-task key sets. -/
def inconsistentTasksGo (firstKeys : List String) :
    List IterResult → Nat → List IdemIssue
  | [], _ => []
  | r :: rest, i =>
    if ¬ keySetEq (taskKeys r) firstKeys then
      IdemIssue.inconsistentTasks (i + 1)
          (symmDiff (taskKeys r) firstKeys) ::
        inconsistentTasksGo firstKeys rest (i + 1)
    else
      inconsistentTasksGo firstKeys rest (i + 1)

/-- The analysis dict returned at lines 408-413 (recommendations are
fixed text and not modelled). -/
structure IdemAnalysis : Type where
  idempotent : Bool
  issues : List IdemIssue
  consistencyScore : Nat
deriving DecidableEq

/-- Lines 337-344: one `execution_failure` issue when any iteration
failed. -/
def executionFailureIssues (results : List IterResult) : List IdemIssue :=
  match failedIters results 1 with
  | [] => []
  | l => [IdemIssue.executionFailure l]

/-- Lines 346-388, guarded by `if len(results) > 1`: the change-set and
task-set comparisons of every later iteration against the first. -/
def comparisonIssues : List IterResult → List IdemIssue
  | [] => []
  | r0 :: rest =>
    if rest.isEmpty then []
    else
      inconsistentChangesGo (changeKeys r0) rest 1 ++
        inconsistentTasksGo (taskKeys r0) rest 1

/-- `_analyze_idempotence` (test_idempotence.py lines 333-413): collect
execution-failure, inconsistent-change and inconsistent-task issues; the
verdict is `len(issues) == 0` and the score `max(0, 100 - 10 *
len(issues))` (`Nat` subtraction truncates at 0 exactly as the `max`
does). -/
def analyze_idempotence (results : List IterResult) : IdemAnalysis :=
  let issues := executionFailureIssues results ++ comparisonIssues results
  { idempotent := issues.isEmpty,
    issues := issues,
    consistencyScore := 100 - 10 * issues.length }

/-! ## Claims about the progressive deployment controller -/

/-- Trace invariant of the retry loop: if attempt `k` is reached when the
loop starts at attempt `a`, the timeout budget passed to it is
`baseTimeout * scalingFactor ^ (a + k)`. -/
theorem retryGo_trace (step : Nat → RetryStep) (baseTimeout scalingFactor : Nat) :
    ∀ (fuel a k : Nat),
      k < (retryGo step baseTimeout scalingFactor fuel a).1.length →
        (retryGo step baseTimeout scalingFactor fuel a).1.getD k 0
          = baseTimeout * scalingFactor ^ (a + k) := by
  intro fuel
  induction fuel with
  | zero =>
    intro a k h
    simp [retryGo] at h
  | succ n ih =>
    intro a k h
    cases hstep : step a with
    | ret b =>
      simp only [retryGo, hstep] at h ⊢
      have hk : k = 0 := by
        simpa using Nat.lt_one_iff.mp (by simpa using h)
      subst hk
      simp
    | cont =>
      simp only [retryGo, hstep] at h ⊢
      cases k with
      | zero => simp
      | succ k =>
        have h' : k < (retryGo step baseTimeout scalingFactor n (a + 1)).1.length := by
          simpa using h
        have := ih (a + 1) k h'
        have harith : a + 1 + k = a + (k + 1) := by omega
        simpa [harith] using this

/-- Claim C9 (confirmed): in `run_ansible_with_retry`, the timeout budget
passed to the executor on attempt `k` equals
`baseTimeout * scalingFactor ^ k`. -/
theorem retry_timeout_budget (maxRetries baseTimeout scalingFactor : Nat)
    (asyncMode : Bool) (execS : Nat → SyncExec) (execA : Nat → AsyncExec)
    (k : Nat)
    (hk : k < (run_ansible_with_retry maxRetries baseTimeout scalingFactor
        asyncMode execS execA).1.length) :
    (run_ansible_with_retry maxRetries baseTimeout scalingFactor asyncMode
        execS execA).1.getD k 0
      = baseTimeout * scalingFactor ^ k := by
  have h := retryGo_trace
    (fun attempt =>
      if asyncMode then asyncStep (execA attempt) else syncStep (execS attempt))
    baseTimeout scalingFactor maxRetries 0 k
    (by simpa [run_ansible_with_retry] using hk)
  simpa [run_ansible_with_retry] using h

/-- Witness for C9: with `baseTimeout = 100` and `scalingFactor = 2`
(every attempt timing out at the wrapper level so all three attempts
run), attempt 0 is granted 100 and attempt 2 is granted 400. -/
theorem retry_timeout_budget_witness :
    (run_ansible_with_retry 3 100 2 false (fun _ => SyncExec.timedOut)
        (fun _ => AsyncExec.raised)).1.getD 0 0 = 100 ∧
      (run_ansible_with_retry 3 100 2 false (fun _ => SyncExec.timedOut)
        (fun _ => AsyncExec.raised)).1.getD 2 0 = 400 := by
  constructor
  · have h := retry_timeout_budget 3 100 2 false (fun _ => SyncExec.timedOut)
      (fun _ => AsyncExec.raised) 0 (by decide)
    simpa using h
  · have h := retry_timeout_budget 3 100 2 false (fun _ => SyncExec.timedOut)
      (fun _ => AsyncExec.raised) 2 (by decide)
    norm_num at h
    exact h

/-- Claim C3 (code bug): in the synchronous mode a non-zero exit whose
stderr clearly indicates a timeout does NOT proceed to the next attempt:
`check=True` makes `subprocess.run` raise `CalledProcessError`, the
generic `except` returns `False`, and only one of the three granted
attempts is consumed (first conjunct).  In the asynchronous mode the same
outcome does proceed to the next attempt with a doubled budget, as the
claim states (second conjunct). -/
theorem sync_retry_ignores_timeout_stderr :
    run_ansible_with_retry 3 300 2 false
        (fun _ => SyncExec.completed 2 "" "ansible timed out connecting")
        (fun _ => AsyncExec.raised)
      = ([300], false) ∧
      run_ansible_with_retry 3 300 2 true
        (fun _ => SyncExec.raised)
        (fun n =>
          if n = 0 then AsyncExec.result 2 "" "ansible timed out connecting"
          else AsyncExec.result 0 "" "")
      = ([300, 600], true) := by
  constructor
  · rfl
  · rfl

/-- A stage config whose every ingredient succeeds: no pre-commands, lock
check enabled, synchronous executor succeeding on the first attempt. -/
def allGreenConfig : StageConfig :=
  { name := some "stage1", playbook := some "site.yml",
    timeout := some 300, retries := some 3, asyncMode := some false,
    preCommands := [], checkLocks := some true,
    estimatedDuration := some 60 }

/-- The same config under the name `stage2`. -/
def allGreenConfig2 : StageConfig :=
  { allGreenConfig with name := some "stage2" }

/-- An environment in which everything succeeds: no locks held, every
pre-command exits 0, the executor exits 0 on its first attempt. -/
def allGreenEnv : StageEnv :=
  { locksClear := true, cmdExit := fun _ => 0,
    execS := fun _ => SyncExec.completed 0 "ok" "",
    execA := fun _ => AsyncExec.raised }

/-- Neutral optimization profile: multiplier 1, defaults matching the
stage configs used here. -/
def unitOptimizations : Optimizations :=
  { multNum := 1, multDen := 1, retryCount := 3, asyncEnabled := false }

/-- A freshly initialised state whose `stages` dict exists and is empty. -/
def emptyStagesState : DeploymentState :=
  { hasStagesKey := true, stages := [] }

/-- Claim C1 (code bug): on two stages that both would succeed on their
first attempt, the run records `completed` for stage1, then aborts and
returns `False`: `deploy_stage` falls off the end of its success path
returning `None`, which `progressive_deployment` treats as falsy failure,
so stage2 is never attempted and overall success is never returned. -/
theorem progressive_all_success_returns_false :
    progressive_deployment [allGreenConfig, allGreenConfig2]
        (fun _ => allGreenEnv) unitOptimizations
        emptyStagesState emptyStagesState false
      = DeployResult.ret false
          { hasStagesKey := true,
            stages := [("stage1",
              { status := "completed", duration := 60, asyncFlag := false })] } := by
  rfl

/-- A stage whose first pre-command exits non-zero. -/
def failingPreConfig : StageConfig :=
  { name := some "stage1", playbook := some "site.yml",
    timeout := some 300, retries := some 3, asyncMode := some false,
    preCommands := ["apt-get update"], checkLocks := some false,
    estimatedDuration := some 60 }

/-- Environment in which every pre-command exits 1. -/
def failingPreEnv : StageEnv :=
  { locksClear := true, cmdExit := fun _ => 1,
    execS := fun _ => SyncExec.completed 0 "" "",
    execA := fun _ => AsyncExec.raised }

/-- A stage with no pre-commands whose executor times out on every
attempt, exhausting the retry budget. -/
def exhaustedConfig : StageConfig :=
  { failingPreConfig with preCommands := [] }

/-- Environment whose executor hits the wrapper timeout on every attempt. -/
def exhaustedEnv : StageEnv :=
  { locksClear := true, cmdExit := fun _ => 0,
    execS := fun _ => SyncExec.timedOut,
    execA := fun _ => AsyncExec.raised }

/-- Claim C2 (code bug): a stage run that ends in failure — here first a
pre-command failure, then a retry-exhaustion failure — returns `False`
with the deployment state completely untouched and never saved: no
StageOutcome with status `failed` (or any status) is recorded, and a
subsequent `resume_deployment` finds no failed stage to resume. -/
theorem failed_stage_never_recorded :
    deploy_stage failingPreConfig failingPreEnv emptyStagesState false
        = StageResult.ok PyRet.pyFalse emptyStagesState false ∧
      deploy_stage exhaustedConfig exhaustedEnv emptyStagesState false
        = StageResult.ok PyRet.pyFalse emptyStagesState false ∧
      resume_deployment [failingPreConfig] failingPreEnv
          emptyStagesState emptyStagesState
        = DeployResult.ret false emptyStagesState := by
  refine ⟨rfl, rfl, rfl⟩

/-- Claim C10 (confirmed): with an empty `stages` list and `dry_run`
false, `progressive_deployment` reaches the final summary whose success
rate divides by `total_stages = 0`, raising an unguarded
`ZeroDivisionError` instead of returning. -/
theorem progressive_empty_stages_zero_division
    (envOf : Nat → StageEnv) (opt : Optimizations)
    (state persisted : DeploymentState) :
    progressive_deployment [] envOf opt state persisted false
      = DeployResult.zeroDivError persisted := by
  rfl

/-! ## Claims about the consistency checker -/

/-- A snapshot in which exactly one host has facts. -/
def singleHostSnapshot : ConsSnapshot :=
  { facts := some [("h1", [("ansible_distribution", "Ubuntu")])],
    services := none }

/-- Counterexample to claim C5: with facts for a single host the report
does contain the explicit issue, but `consistent` stays `true`, not
`false` as claimed: lines 334-336 append the issue and return without
clearing the flag (unlike the missing-directory branch of lines
320-323). -/
theorem single_host_report_stays_consistent :
    (check_multi_node_consistency singleHostSnapshot).consistent = true ∧
      (check_multi_node_consistency singleHostSnapshot).issues
        = [ConsIssue.text "Need at least 2 hosts for consistency check"] :=
  ⟨rfl, rfl⟩

/-- Claim C5 (corrected): for every snapshot in which fewer than two
hosts have facts, `check_multi_node_consistency` returns the explicit
issue saying at least two hosts are needed, but the report is NOT marked
inconsistent: `consistent` remains `true`. -/
theorem under_two_hosts_issue_consistent_true
    (snap : ConsSnapshot) (allFacts : List (String × List (String × String)))
    (hf : snap.facts = some allFacts) (hlen : allFacts.length < 2) :
    check_multi_node_consistency snap
      = { consistent := true,
          issues := [ConsIssue.text "Need at least 2 hosts for consistency check"],
          summary := none } := by
  simp only [check_multi_node_consistency, hf]
  rw [if_pos hlen]

/-- Witness for C5: the single-host snapshot satisfies the hypotheses and
yields the amended report. -/
theorem under_two_hosts_issue_witness :
    check_multi_node_consistency singleHostSnapshot
      = { consistent := true,
          issues := [ConsIssue.text "Need at least 2 hosts for consistency check"],
          summary := none } :=
  under_two_hosts_issue_consistent_true singleHostSnapshot
    [("h1", [("ansible_distribution", "Ubuntu")])] rfl (by decide)

theorem mem_acc_of_mem_commonServicesAux {x : String} :
    ∀ (l : List (String × List String)) (acc : List String),
      x ∈ commonServicesAux acc l → x ∈ acc := by
  intro l
  induction l with
  | nil =>
    intro acc h
    simpa [commonServicesAux] using h
  | cons hd rest ih =>
    intro acc h
    have := ih (acc.filter (· ∈ hd.2)) (by
      simpa [commonServicesAux] using h)
    exact List.mem_of_mem_filter this

theorem mem_svcs_of_mem_commonServicesAux {x host : String}
    {svcs : List String} :
    ∀ (l : List (String × List String)) (acc : List String),
      (host, svcs) ∈ l → x ∈ commonServicesAux acc l → x ∈ svcs := by
  intro l
  induction l with
  | nil =>
    intro acc hmem _
    cases hmem
  | cons hd rest ih =>
    intro acc hmem hx
    have hx' : x ∈ commonServicesAux (acc.filter (· ∈ hd.2)) rest := by
      simpa [commonServicesAux] using hx
    rcases List.mem_cons.mp hmem with h | h
    · have hacc := mem_acc_of_mem_commonServicesAux rest _ hx'
      have : x ∈ hd.2 := by simpa using List.of_mem_filter hacc
      rw [← h] at this
      exact this
    · exact ih _ h hx'

/-- Every element of `common_services` belongs to every host's service
set — including the host about to be checked for missing services. -/
theorem commonServices_subset {x host : String} {svcs : List String}
    {l : List (String × List String)} (hmem : (host, svcs) ∈ l)
    (hx : x ∈ commonServices l) : x ∈ svcs := by
  cases l with
  | nil => cases hmem
  | cons hd rest =>
    rcases List.mem_cons.mp hmem with h | h
    · have := mem_acc_of_mem_commonServicesAux rest hd.2
        (by simpa [commonServices] using hx)
      rw [← h] at this
      exact this
    · exact mem_svcs_of_mem_commonServicesAux rest hd.2 h
        (by simpa [commonServices] using hx)

theorem missingServiceIssues_eq_nil {c : List String} :
    ∀ (l : List (String × List String)),
      (∀ host svcs, (host, svcs) ∈ l →
        c.filter (fun s => ¬ s ∈ svcs) = []) →
      missingServiceIssues c l = [] := by
  intro l
  induction l with
  | nil => intro _; rfl
  | cons hd rest ih =>
    intro h
    have hhd : c.filter (fun s => ¬ s ∈ hd.2) = [] :=
      h hd.1 hd.2 (by simp)
    simp only [missingServiceIssues, hhd]
    simp only [ne_eq, not_true_eq_false, if_false]
    exact ih (fun host svcs hm => h host svcs (List.mem_cons_of_mem _ hm))

/-- The missing-service branch of `check_multi_node_consistency` is dead
code: for any service map, intersecting over all hosts makes every
per-host difference empty, so no `missing_services` issue is ever
produced. -/
theorem missingServiceIssues_always_nil (l : List (String × List String)) :
    missingServiceIssues (commonServices l) l = [] := by
  apply missingServiceIssues_eq_nil
  intro host svcs hmem
  rw [List.filter_eq_nil_iff]
  intro x hx
  simp only [decide_not, Bool.not_eq_true', decide_eq_false_iff_not,
    not_not]
  exact commonServices_subset hmem hx

/-- A snapshot in which host h2 lacks `b.service`, which the only other
host h1 runs. -/
def lopsidedServicesSnapshot : ConsSnapshot :=
  { facts := some [("h1", []), ("h2", [])],
    services := some
      [("h1", ["a.service", "b.service"]), ("h2", ["a.service"])] }

/-- Claim C6 (code bug): host h2 lacks `b.service` which every other host
runs, yet the report is consistent with no issues at all: lines 374-379
intersect `common_services` over ALL hosts including the host under
check, so `common_services - services[host]` (line 383) is always empty
and the missing-service issue of lines 385-390 can never be emitted
(second conjunct: for every service map whatsoever). -/
theorem missing_service_never_reported :
    check_multi_node_consistency lopsidedServicesSnapshot
        = { consistent := true, issues := [], summary := some (2, 0) } ∧
      ∀ l : List (String × List String),
        missingServiceIssues (commonServices l) l = [] :=
  ⟨rfl, missingServiceIssues_always_nil⟩

/-! ## Claims about the idempotence analyzer -/

theorem failedIters_eq_nil :
    ∀ (l : List IterResult) (i : Nat),
      failedIters l i = [] ↔ ∀ r ∈ l, r.returncode = 0 := by
  intro l
  induction l with
  | nil => intro i; simp [failedIters]
  | cons r rest ih =>
    intro i
    by_cases hrc : r.returncode = 0
    · simp [failedIters, hrc, ih (i + 1)]
    · constructor
      · intro h
        simp [failedIters, hrc] at h
      · intro h
        exact absurd (h r (List.mem_cons_self r rest)) hrc

theorem executionFailureIssues_eq_nil (results : List IterResult) :
    executionFailureIssues results = [] ↔ failedIters results 1 = [] := by
  unfold executionFailureIssues
  cases h : failedIters results 1 with
  | nil => simp
  | cons a l => simp

theorem inconsistentChangesGo_eq_nil (fk : List String) :
    ∀ (l : List IterResult) (i : Nat),
      inconsistentChangesGo fk l i = [] ↔
        ∀ r ∈ l, keySetEq (changeKeys r) fk = true := by
  intro l
  induction l with
  | nil => intro i; simp [inconsistentChangesGo]
  | cons r rest ih =>
    intro i
    by_cases hk : keySetEq (changeKeys r) fk = true
    · simp [inconsistentChangesGo, hk, ih (i + 1)]
    · constructor
      · intro h
        simp [inconsistentChangesGo, hk] at h
      · intro h
        exact absurd (h r (List.mem_cons_self r rest)) hk

theorem inconsistentTasksGo_eq_nil (fk : List String) :
    ∀ (l : List IterResult) (i : Nat),
      inconsistentTasksGo fk l i = [] ↔
        ∀ r ∈ l, keySetEq (taskKeys r) fk = true := by
  intro l
  induction l with
  | nil => intro i; simp [inconsistentTasksGo]
  | cons r rest ih =>
    intro i
    by_cases hk : keySetEq (taskKeys r) fk = true
    · simp [inconsistentTasksGo, hk, ih (i + 1)]
    · constructor
      · intro h
        simp [inconsistentTasksGo, hk] at h
      · intro h
        exact absurd (h r (List.mem_cons_self r rest)) hk

/-- An iteration that exits 0, detects no state changes, but whose output
reports one changed task. -/
def benignTaskIter : IterResult :=
  { returncode := 0, changes := [],
    changedTasks := [{ host := "h1", task := "touch marker" }] }

/-- An iteration that exits 0 with no changes and no changed tasks. -/
def quietIter : IterResult :=
  { returncode := 0, changes := [], changedTasks := [] }

/-- Counterexample to claim C4: both iterations exit 0 and their
change-key sets are identical (both empty), so the claim's conditions (a)
and (b) hold, yet the verdict is "not idempotent": the changed-task key
sets differ, and lines 369-388 let that third condition flip the
verdict. -/
theorem verdict_depends_on_task_sets :
    (analyze_idempotence [benignTaskIter, quietIter]).idempotent = false ∧
      benignTaskIter.returncode = 0 ∧ quietIter.returncode = 0 ∧
      keySetEq (changeKeys quietIter) (changeKeys benignTaskIter) = true :=
  ⟨rfl, rfl, rfl, rfl⟩

/-- Claim C4 (corrected): the idempotence verdict is an iff over THREE
conditions: every iteration's executor exit code is 0, every later
iteration's change-key set is set-equal to the first iteration's, and
every later iteration's changed-task key set (host:task) is set-equal to
the first iteration's. -/
theorem analyze_idempotence_verdict (r0 : IterResult)
    (rest : List IterResult) :
    (analyze_idempotence (r0 :: rest)).idempotent = true ↔
      ((∀ r ∈ r0 :: rest, r.returncode = 0) ∧
        (∀ r ∈ rest, keySetEq (changeKeys r) (changeKeys r0) = true) ∧
        (∀ r ∈ rest, keySetEq (taskKeys r) (taskKeys r0) = true)) := by
  have hidem : (analyze_idempotence (r0 :: rest)).idempotent
      = (executionFailureIssues (r0 :: rest) ++
          comparisonIssues (r0 :: rest)).isEmpty := rfl
  rw [hidem, List.isEmpty_iff, List.append_eq_nil,
    executionFailureIssues_eq_nil, failedIters_eq_nil]
  cases rest with
  | nil => simp [comparisonIssues]
  | cons r1 rest2 =>
    simp only [comparisonIssues, List.isEmpty_cons, Bool.false_eq_true,
      if_false, List.append_eq_nil, inconsistentChangesGo_eq_nil,
      inconsistentTasksGo_eq_nil]

/-! ## Claims about the snapshot differ -/

theorem mem_keysOf_of_pyDictGet_eq_some {α : Type}
    {l : List (String × α)} {f : String} {v : α}
    (h : pyDictGet l f = some v) : f ∈ keysOf l := by
  have hmem : (f, v) ∈ l := by
    simpa using mem_of_lookupStr_eq_some (l := l.reverse) h
  exact List.mem_map_of_mem Prod.fst hmem

theorem mem_unionKeys {b a : List (String × String)} {f : String} :
    f ∈ unionKeys b a ↔ f ∈ keysOf b ∨ f ∈ keysOf a := by
  simp [unionKeys, List.mem_dedup, List.mem_append]

theorem factChangesForHost_host {h : String}
    {bf af : List (String × String)} :
    ∀ {fields : List String} {c : FactChange},
      c ∈ factChangesForHost h bf af fields → c.host = h := by
  intro fields
  induction fields with
  | nil =>
    intro c hc
    simp [factChangesForHost] at hc
  | cons f0 rest ih =>
    intro c hc
    cases hb0 : lookupStr bf f0 with
    | none =>
      rw [factChangesForHost, hb0] at hc
      exact ih hc
    | some bv0 =>
      cases ha0 : lookupStr af f0 with
      | none =>
        rw [factChangesForHost, hb0, ha0] at hc
        exact ih hc
      | some av0 =>
        simp only [factChangesForHost, hb0, ha0] at hc
        by_cases hne0 : bv0 ≠ av0
        · rw [if_pos hne0] at hc
          rcases List.mem_cons.mp hc with h1 | h1
          · rw [h1]
          · exact ih h1
        · rw [if_neg hne0] at hc
          exact ih hc

theorem factChangesForHost_complete {h field bv av : String}
    {bf af : List (String × String)} :
    ∀ {fields : List String}, field ∈ fields →
      lookupStr bf field = some bv → lookupStr af field = some av →
      bv ≠ av →
      ({ host := h, field := field, before := bv, after := av } : FactChange)
        ∈ factChangesForHost h bf af fields := by
  intro fields
  induction fields with
  | nil =>
    intro hf _ _ _
    cases hf
  | cons f0 rest ih =>
    intro hf hb ha hne
    rcases List.mem_cons.mp hf with h1 | h1
    · subst h1
      simp only [factChangesForHost, hb, ha]
      rw [if_pos hne]
      exact List.mem_cons_self _ _
    · have htail := ih h1 hb ha hne
      cases hb0 : lookupStr bf f0 with
      | none =>
        rw [factChangesForHost, hb0]
        exact htail
      | some bv0 =>
        cases ha0 : lookupStr af f0 with
        | none =>
          simp only [factChangesForHost, hb0, ha0]
          exact htail
        | some av0 =>
          simp only [factChangesForHost, hb0, ha0]
          by_cases hne0 : bv0 ≠ av0
          · rw [if_pos hne0]
            exact List.mem_cons_of_mem _ htail
          · rw [if_neg hne0]
            exact htail

theorem factChangesGo_complete {host : String}
    {bf af : List (String × String)}
    {ad : List (String × List (String × String))} {c : FactChange} :
    ∀ {bl : List (String × List (String × String))},
      (host, bf) ∈ bl → lookupStr ad host = some af →
      c ∈ factChangesForHost host bf af factKeyFields →
      c ∈ factChangesGo ad bl := by
  intro bl
  induction bl with
  | nil =>
    intro hm _ _
    cases hm
  | cons hd rest ih =>
    intro hm ha hc
    rcases List.mem_cons.mp hm with h1 | h1
    · rw [← h1, factChangesGo, ha]
      exact List.mem_append_left _ hc
    · obtain ⟨h0, b0⟩ := hd
      cases ha0 : lookupStr ad h0 with
      | none =>
        rw [factChangesGo, ha0]
        exact ih h1 ha hc
      | some a0 =>
        rw [factChangesGo, ha0]
        exact List.mem_append_right _ (ih h1 ha hc)

theorem factChangesGo_sound {ad : List (String × List (String × String))}
    {c : FactChange} :
    ∀ {bl : List (String × List (String × String))},
      c ∈ factChangesGo ad bl →
      ∃ host bf af, (host, bf) ∈ bl ∧ lookupStr ad host = some af ∧
        c ∈ factChangesForHost host bf af factKeyFields := by
  intro bl
  induction bl with
  | nil =>
    intro hc
    simp [factChangesGo] at hc
  | cons hd rest ih =>
    intro hc
    obtain ⟨h0, b0⟩ := hd
    cases ha0 : lookupStr ad h0 with
    | none =>
      rw [factChangesGo, ha0] at hc
      obtain ⟨host, bf, af, hm, ha, hcc⟩ := ih hc
      exact ⟨host, bf, af, List.mem_cons_of_mem _ hm, ha, hcc⟩
    | some a0 =>
      rw [factChangesGo, ha0] at hc
      rcases List.mem_append.mp hc with h1 | h1
      · exact ⟨h0, b0, a0, List.mem_cons_self _ _, ha0, h1⟩
      · obtain ⟨host, bf, af, hm, ha, hcc⟩ := ih h1
        exact ⟨host, bf, af, List.mem_cons_of_mem _ hm, ha, hcc⟩

theorem configChangesForFiles_sound {h : String}
    {b a : List (String × String)} :
    ∀ {fl : List String} {c : ConfigChange},
      c ∈ configChangesForFiles h b a fl →
      ∃ f, f ∈ fl ∧ pyDictGet b f ≠ pyDictGet a f ∧
        c = mkConfigChange h f (pyDictGet b f) (pyDictGet a f) := by
  intro fl
  induction fl with
  | nil =>
    intro c hc
    simp [configChangesForFiles] at hc
  | cons f0 rest ih =>
    intro c hc
    by_cases hne0 : pyDictGet b f0 ≠ pyDictGet a f0
    · rw [configChangesForFiles] at hc
      simp only [if_pos hne0] at hc
      rcases List.mem_cons.mp hc with h1 | h1
      · exact ⟨f0, List.mem_cons_self _ _, hne0, h1⟩
      · obtain ⟨f, hf, hneq, hceq⟩ := ih h1
        exact ⟨f, List.mem_cons_of_mem _ hf, hneq, hceq⟩
    · rw [configChangesForFiles] at hc
      simp only [if_neg hne0] at hc
      obtain ⟨f, hf, hneq, hceq⟩ := ih hc
      exact ⟨f, List.mem_cons_of_mem _ hf, hneq, hceq⟩

theorem configChangesForFiles_complete {h f : String}
    {b a : List (String × String)} :
    ∀ {fl : List String}, f ∈ fl → pyDictGet b f ≠ pyDictGet a f →
      mkConfigChange h f (pyDictGet b f) (pyDictGet a f)
        ∈ configChangesForFiles h b a fl := by
  intro fl
  induction fl with
  | nil =>
    intro hf _
    cases hf
  | cons f0 rest ih =>
    intro hf hne
    rcases List.mem_cons.mp hf with h1 | h1
    · subst h1
      rw [configChangesForFiles]
      simp only [if_pos hne]
      exact List.mem_cons_self _ _
    · have htail := ih h1 hne
      by_cases hne0 : pyDictGet b f0 ≠ pyDictGet a f0
      · rw [configChangesForFiles]
        simp only [if_pos hne0]
        exact List.mem_cons_of_mem _ htail
      · rw [configChangesForFiles]
        simp only [if_neg hne0]
        exact htail

theorem configChangesGo_complete {host : String}
    {b a : List (String × String)}
    {ad : List (String × List (String × String))} {c : ConfigChange} :
    ∀ {bl : List (String × List (String × String))},
      (host, b) ∈ bl → lookupStr ad host = some a →
      c ∈ configChangesForHost host b a →
      c ∈ configChangesGo ad bl := by
  intro bl
  induction bl with
  | nil =>
    intro hm _ _
    cases hm
  | cons hd rest ih =>
    intro hm ha hc
    rcases List.mem_cons.mp hm with h1 | h1
    · rw [← h1, configChangesGo, ha]
      exact List.mem_append_left _ hc
    · obtain ⟨h0, b0⟩ := hd
      cases ha0 : lookupStr ad h0 with
      | none =>
        rw [configChangesGo, ha0]
        exact ih h1 ha hc
      | some a0 =>
        rw [configChangesGo, ha0]
        exact List.mem_append_right _ (ih h1 ha hc)

theorem configChangesGo_sound {ad : List (String × List (String × String))}
    {c : ConfigChange} :
    ∀ {bl : List (String × List (String × String))},
      c ∈ configChangesGo ad bl →
      ∃ host b a, (host, b) ∈ bl ∧ lookupStr ad host = some a ∧
        c ∈ configChangesForHost host b a := by
  intro bl
  induction bl with
  | nil =>
    intro hc
    simp [configChangesGo] at hc
  | cons hd rest ih =>
    intro hc
    obtain ⟨h0, b0⟩ := hd
    cases ha0 : lookupStr ad h0 with
    | none =>
      rw [configChangesGo, ha0] at hc
      obtain ⟨host, b, a, hm, ha, hcc⟩ := ih hc
      exact ⟨host, b, a, List.mem_cons_of_mem _ hm, ha, hcc⟩
    | some a0 =>
      rw [configChangesGo, ha0] at hc
      rcases List.mem_append.mp hc with h1 | h1
      · exact ⟨h0, b0, a0, List.mem_cons_self _ _, ha0, h1⟩
      · obtain ⟨host, b, a, hm, ha, hcc⟩ := ih h1
        exact ⟨host, b, a, List.mem_cons_of_mem _ hm, ha, hcc⟩

theorem serviceChangesForHost_started {h s : String} {b a : List String}
    (hsa : s ∈ a) (hsb : ¬ s ∈ b) :
    ({ host := h, service := s, ctype := "started" } : ServiceChange)
      ∈ serviceChangesForHost h b a := by
  apply List.mem_append_left
  apply List.mem_map_of_mem
  rw [List.mem_filter]
  exact ⟨List.mem_dedup.mpr hsa, by simpa using hsb⟩

theorem serviceChangesForHost_stopped {h s : String} {b a : List String}
    (hsb : s ∈ b) (hsa : ¬ s ∈ a) :
    ({ host := h, service := s, ctype := "stopped" } : ServiceChange)
      ∈ serviceChangesForHost h b a := by
  apply List.mem_append_right
  apply List.mem_map_of_mem
  rw [List.mem_filter]
  exact ⟨List.mem_dedup.mpr hsb, by simpa using hsa⟩

theorem serviceChangesForHost_sound {h : String} {b a : List String}
    {c : ServiceChange} (hc : c ∈ serviceChangesForHost h b a) :
    c.host = h ∧
      ((c.ctype = "started" ∧ c.service ∈ a ∧ ¬ c.service ∈ b) ∨
        (c.ctype = "stopped" ∧ c.service ∈ b ∧ ¬ c.service ∈ a)) := by
  rcases List.mem_append.mp hc with h1 | h1
  · obtain ⟨s, hs, hmk⟩ := List.mem_map.mp h1
    rw [List.mem_filter] at hs
    obtain ⟨hsd, hsnb⟩ := hs
    refine ⟨by rw [← hmk], Or.inl ⟨by rw [← hmk], ?_, ?_⟩⟩
    · rw [← hmk]
      exact List.mem_dedup.mp hsd
    · rw [← hmk]
      simpa using hsnb
  · obtain ⟨s, hs, hmk⟩ := List.mem_map.mp h1
    rw [List.mem_filter] at hs
    obtain ⟨hsd, hsna⟩ := hs
    refine ⟨by rw [← hmk], Or.inr ⟨by rw [← hmk], ?_, ?_⟩⟩
    · rw [← hmk]
      exact List.mem_dedup.mp hsd
    · rw [← hmk]
      simpa using hsna

theorem serviceChangesGo_complete {host : String} {b a : List String}
    {ad : List (String × List String)} {c : ServiceChange} :
    ∀ {bl : List (String × List String)},
      (host, b) ∈ bl → lookupStr ad host = some a →
      c ∈ serviceChangesForHost host b a →
      c ∈ serviceChangesGo ad bl := by
  intro bl
  induction bl with
  | nil =>
    intro hm _ _
    cases hm
  | cons hd rest ih =>
    intro hm ha hc
    rcases List.mem_cons.mp hm with h1 | h1
    · rw [← h1, serviceChangesGo, ha]
      exact List.mem_append_left _ hc
    · obtain ⟨h0, b0⟩ := hd
      cases ha0 : lookupStr ad h0 with
      | none =>
        rw [serviceChangesGo, ha0]
        exact ih h1 ha hc
      | some a0 =>
        rw [serviceChangesGo, ha0]
        exact List.mem_append_right _ (ih h1 ha hc)

theorem serviceChangesGo_sound {ad : List (String × List String)}
    {c : ServiceChange} :
    ∀ {bl : List (String × List String)},
      c ∈ serviceChangesGo ad bl →
      ∃ host b a, (host, b) ∈ bl ∧ lookupStr ad host = some a ∧
        c ∈ serviceChangesForHost host b a := by
  intro bl
  induction bl with
  | nil =>
    intro hc
    simp [serviceChangesGo] at hc
  | cons hd rest ih =>
    intro hc
    obtain ⟨h0, b0⟩ := hd
    cases ha0 : lookupStr ad h0 with
    | none =>
      rw [serviceChangesGo, ha0] at hc
      obtain ⟨host, b, a, hm, ha, hcc⟩ := ih hc
      exact ⟨host, b, a, List.mem_cons_of_mem _ hm, ha, hcc⟩
    | some a0 =>
      rw [serviceChangesGo, ha0] at hc
      rcases List.mem_append.mp hc with h1 | h1
      · exact ⟨h0, b0, a0, List.mem_cons_self _ _, ha0, h1⟩
      · obtain ⟨host, b, a, hm, ha, hcc⟩ := ih h1
        exact ⟨host, b, a, List.mem_cons_of_mem _ hm, ha, hcc⟩

theorem configChangesForHost_host {h : String}
    {b a : List (String × String)} {c : ConfigChange}
    (hc : c ∈ configChangesForHost h b a) : c.host = h := by
  obtain ⟨f, _, _, hceq⟩ := configChangesForFiles_sound hc
  rw [hceq]
  rfl

/-- A snapshot whose configs cover host h1 only. -/
def beforeMissingHost : DiffSnapshot :=
  { factsDir := some [], configsDir := some [("h1", [("f.conf", "x")])],
    servicesDir := some [] }

/-- The same snapshot with an extra host h2 carrying config g.conf. -/
def afterExtraHost : DiffSnapshot :=
  { factsDir := some [],
    configsDir := some [("h1", [("f.conf", "x")]), ("h2", [("g.conf", "y")])],
    servicesDir := some [] }

/-- Counterexample to claim C7: host h2 appears only in the after
snapshot, carrying config g.conf, yet the diff reports no changes at
all — the comparison iterates only the hosts of the before snapshot and
skips hosts without a matching file on the other side, so an item of a
one-sided host is never reported as an addition or removal. -/
theorem one_sided_host_not_reported :
    (compare_snapshots beforeMissingHost afterExtraHost).totalChanges = 0 ∧
      (compare_snapshots beforeMissingHost afterExtraHost).configs.changes
        = [] :=
  ⟨rfl, rfl⟩

/-- Claim C7 (corrected): `compare_snapshots` compares, in each category,
only hosts present in BOTH snapshots — every reported change names a host
that has an entry on each side (first three conjuncts) — and for such a
common host it compares configs and services over the union of item keys
(fourth and fifth conjuncts) while facts are compared only on allow-listed
fields present in both hosts' fact maps (sixth conjunct). -/
theorem diff_hosts_in_both_snapshots :
    (∀ (A B : DiffSnapshot) (c : FactChange),
        c ∈ (compare_snapshots A B).facts.changes →
        ∃ bd ad bf af, A.factsDir = some bd ∧ B.factsDir = some ad ∧
          lookupStr bd c.host = some bf ∧ lookupStr ad c.host = some af) ∧
    (∀ (A B : DiffSnapshot) (c : ConfigChange),
        c ∈ (compare_snapshots A B).configs.changes →
        ∃ bd ad b a, A.configsDir = some bd ∧ B.configsDir = some ad ∧
          lookupStr bd c.host = some b ∧ lookupStr ad c.host = some a) ∧
    (∀ (A B : DiffSnapshot) (c : ServiceChange),
        c ∈ (compare_snapshots A B).services.changes →
        ∃ bd ad b a, A.servicesDir = some bd ∧ B.servicesDir = some ad ∧
          lookupStr bd c.host = some b ∧ lookupStr ad c.host = some a) ∧
    (∀ (A B : DiffSnapshot) (bd ad : List (String × List (String × String)))
        (h : String) (b a : List (String × String)) (f : String),
        A.configsDir = some bd → B.configsDir = some ad →
        (h, b) ∈ bd → lookupStr ad h = some a →
        pyDictGet b f ≠ pyDictGet a f →
        mkConfigChange h f (pyDictGet b f) (pyDictGet a f)
          ∈ (compare_snapshots A B).configs.changes) ∧
    (∀ (A B : DiffSnapshot) (bd ad : List (String × List String))
        (h : String) (b a : List String) (s : String),
        A.servicesDir = some bd → B.servicesDir = some ad →
        (h, b) ∈ bd → lookupStr ad h = some a →
        ((s ∈ a → ¬ s ∈ b →
            ({ host := h, service := s, ctype := "started" } : ServiceChange)
              ∈ (compare_snapshots A B).services.changes) ∧
          (s ∈ b → ¬ s ∈ a →
            ({ host := h, service := s, ctype := "stopped" } : ServiceChange)
              ∈ (compare_snapshots A B).services.changes))) ∧
    (∀ (A B : DiffSnapshot)
        (bd ad : List (String × List (String × String)))
        (h : String) (bf af : List (String × String))
        (field bv av : String),
        A.factsDir = some bd → B.factsDir = some ad →
        (h, bf) ∈ bd → lookupStr ad h = some af →
        field ∈ factKeyFields →
        lookupStr bf field = some bv → lookupStr af field = some av →
        bv ≠ av →
        ({ host := h, field := field, before := bv, after := av } : FactChange)
          ∈ (compare_snapshots A B).facts.changes) := by
  refine ⟨?_, ?_, ?_, ?_, ?_, ?_⟩
  · intro A B c hc
    cases hA : A.factsDir with
    | none =>
      cases hB : B.factsDir with
      | none => simp [compare_snapshots, compare_facts, hA, hB] at hc
      | some ad => simp [compare_snapshots, compare_facts, hA, hB] at hc
    | some bd =>
      cases hB : B.factsDir with
      | none => simp [compare_snapshots, compare_facts, hA, hB] at hc
      | some ad =>
        simp only [compare_snapshots, compare_facts, hA, hB] at hc
        obtain ⟨host, bf, af, hm, ha, hcc⟩ := factChangesGo_sound hc
        have hhost := factChangesForHost_host hcc
        obtain ⟨w, hw⟩ := lookupStr_isSome_of_mem hm
        refine ⟨bd, ad, w, af, rfl, rfl, ?_, ?_⟩
        · rw [hhost]; exact hw
        · rw [hhost]; exact ha
  · intro A B c hc
    cases hA : A.configsDir with
    | none =>
      cases hB : B.configsDir with
      | none => simp [compare_snapshots, compare_configs, hA, hB] at hc
      | some ad => simp [compare_snapshots, compare_configs, hA, hB] at hc
    | some bd =>
      cases hB : B.configsDir with
      | none => simp [compare_snapshots, compare_configs, hA, hB] at hc
      | some ad =>
        simp only [compare_snapshots, compare_configs, hA, hB] at hc
        obtain ⟨host, b, a, hm, ha, hcc⟩ := configChangesGo_sound hc
        have hhost := configChangesForHost_host hcc
        obtain ⟨w, hw⟩ := lookupStr_isSome_of_mem hm
        refine ⟨bd, ad, w, a, rfl, rfl, ?_, ?_⟩
        · rw [hhost]; exact hw
        · rw [hhost]; exact ha
  · intro A B c hc
    cases hA : A.servicesDir with
    | none =>
      cases hB : B.servicesDir with
      | none => simp [compare_snapshots, compare_services, hA, hB] at hc
      | some ad => simp [compare_snapshots, compare_services, hA, hB] at hc
    | some bd =>
      cases hB : B.servicesDir with
      | none => simp [compare_snapshots, compare_services, hA, hB] at hc
      | some ad =>
        simp only [compare_snapshots, compare_services, hA, hB] at hc
        obtain ⟨host, b, a, hm, ha, hcc⟩ := serviceChangesGo_sound hc
        have hhost := (serviceChangesForHost_sound hcc).1
        obtain ⟨w, hw⟩ := lookupStr_isSome_of_mem hm
        refine ⟨bd, ad, w, a, rfl, rfl, ?_, ?_⟩
        · rw [hhost]; exact hw
        · rw [hhost]; exact ha
  · intro A B bd ad h b a f hA hB hm ha hne
    have hf : f ∈ unionKeys b a := by
      rw [mem_unionKeys]
      cases hb1 : pyDictGet b f with
      | some v => exact Or.inl (mem_keysOf_of_pyDictGet_eq_some hb1)
      | none =>
        cases ha1 : pyDictGet a f with
        | some v => exact Or.inr (mem_keysOf_of_pyDictGet_eq_some ha1)
        | none => exact absurd (hb1.trans ha1.symm) hne
    simp only [compare_snapshots, compare_configs, hA, hB]
    exact configChangesGo_complete hm ha
      (configChangesForFiles_complete hf hne)
  · intro A B bd ad h b a s hA hB hm ha
    constructor
    · intro hsa hsb
      simp only [compare_snapshots, compare_services, hA, hB]
      exact serviceChangesGo_complete hm ha
        (serviceChangesForHost_started hsa hsb)
    · intro hsb hsa
      simp only [compare_snapshots, compare_services, hA, hB]
      exact serviceChangesGo_complete hm ha
        (serviceChangesForHost_stopped hsb hsa)
  · intro A B bd ad h bf af field bv av hA hB hm ha hfield hb ha2 hne
    simp only [compare_snapshots, compare_facts, hA, hB]
    exact factChangesGo_complete hm ha
      (factChangesForHost_complete hfield hb ha2 hne)

/-- A one-host snapshot whose f.conf hashes to 1. -/
def hashOneSnapshot : DiffSnapshot :=
  { factsDir := some [], configsDir := some [("h1", [("f.conf", "1")])],
    servicesDir := some [] }

/-- The same host with f.conf hashing to 2. -/
def hashTwoSnapshot : DiffSnapshot :=
  { factsDir := some [], configsDir := some [("h1", [("f.conf", "2")])],
    servicesDir := some [] }

/-- Witness for C7: for the common host h1 the modified f.conf is
reported. -/
theorem diff_hosts_in_both_snapshots_witness :
    mkConfigChange "h1" "f.conf" (some "1") (some "2")
      ∈ (compare_snapshots hashOneSnapshot hashTwoSnapshot).configs.changes := by
  have h := diff_hosts_in_both_snapshots.2.2.2.1 hashOneSnapshot hashTwoSnapshot
    [("h1", [("f.conf", "1")])] [("h1", [("f.conf", "2")])]
    "h1" [("f.conf", "1")] [("f.conf", "2")] "f.conf"
    rfl rfl (by simp) rfl (by decide)
  exact h

theorem configChangesGo_swap
    {bd ad : List (String × List (String × String))}
    (hbd : (keysOf bd).Nodup)
    {h f : String} {u v : Option String}
    (hc : mkConfigChange h f u v ∈ configChangesGo ad bd) :
    mkConfigChange h f v u ∈ configChangesGo bd ad := by
  obtain ⟨host, b, a, hm, ha, hcc⟩ := configChangesGo_sound hc
  obtain ⟨f1, hf1, hne1, hceq⟩ := configChangesForFiles_sound hcc
  have hhost : h = host := congrArg ConfigChange.host hceq
  have hfile : f = f1 := congrArg ConfigChange.file hceq
  have hu : u = pyDictGet b f1 := congrArg ConfigChange.beforeHash hceq
  have hv : v = pyDictGet a f1 := congrArg ConfigChange.afterHash hceq
  have hmem_a : (host, a) ∈ ad := mem_of_lookupStr_eq_some ha
  have hlook_b : lookupStr bd host = some b :=
    lookupStr_eq_some_of_mem hm hbd
  have hfu : f1 ∈ unionKeys a b := by
    rw [mem_unionKeys]
    cases hb1 : pyDictGet a f1 with
    | some w => exact Or.inl (mem_keysOf_of_pyDictGet_eq_some hb1)
    | none =>
      cases ha1 : pyDictGet b f1 with
      | some w => exact Or.inr (mem_keysOf_of_pyDictGet_eq_some ha1)
      | none => exact absurd (ha1.trans hb1.symm) hne1
  rw [hhost, hfile, hu, hv]
  exact configChangesGo_complete hmem_a hlook_b
    (configChangesForFiles_complete hfu (Ne.symm hne1))

theorem serviceChangesGo_swap
    {bd ad : List (String × List String)}
    (hbd : (keysOf bd).Nodup)
    {h s t t2 : String}
    (hswap : (t = "started" ∧ t2 = "stopped") ∨
      (t = "stopped" ∧ t2 = "started"))
    (hc : ({ host := h, service := s, ctype := t } : ServiceChange)
      ∈ serviceChangesGo ad bd) :
    ({ host := h, service := s, ctype := t2 } : ServiceChange)
      ∈ serviceChangesGo bd ad := by
  obtain ⟨host, b, a, hm, ha, hcc⟩ := serviceChangesGo_sound hc
  obtain ⟨hhost, hdisj⟩ := serviceChangesForHost_sound hcc
  have hmem_a : (host, a) ∈ ad := mem_of_lookupStr_eq_some ha
  have hlook_b : lookupStr bd host = some b :=
    lookupStr_eq_some_of_mem hm hbd
  rcases hswap with ⟨ht, ht2⟩ | ⟨ht, ht2⟩
  · rcases hdisj with ⟨_, hsa, hsb⟩ | ⟨htype, _, _⟩
    · rw [ht2]
      have : ({ host := host, service := s, ctype := "stopped" } :
          ServiceChange) ∈ serviceChangesForHost host a b :=
        serviceChangesForHost_stopped hsa hsb
      rw [show h = host from hhost]
      exact serviceChangesGo_complete hmem_a hlook_b this
    · have ht3 : t = "stopped" := htype
      rw [ht] at ht3
      exact absurd ht3 (by decide)
  · rcases hdisj with ⟨htype, _, _⟩ | ⟨_, hsb, hsa⟩
    · have ht3 : t = "started" := htype
      rw [ht] at ht3
      exact absurd ht3 (by decide)
    · rw [ht2]
      have : ({ host := host, service := s, ctype := "started" } :
          ServiceChange) ∈ serviceChangesForHost host a b :=
        serviceChangesForHost_started hsb hsa
      rw [show h = host from hhost]
      exact serviceChangesGo_complete hmem_a hlook_b this

theorem factChangesForHost_self {h : String}
    {x : List (String × String)} :
    ∀ (fields : List String), factChangesForHost h x x fields = [] := by
  intro fields
  induction fields with
  | nil => rfl
  | cons f0 rest ih =>
    cases hb0 : lookupStr x f0 with
    | none => rw [factChangesForHost, hb0]; exact ih
    | some bv0 =>
      simp only [factChangesForHost, hb0, ne_eq, not_true_eq_false,
        if_false, ite_self]
      exact ih

theorem factChangesGo_self
    {ad : List (String × List (String × String))} :
    ∀ (bl : List (String × List (String × String))),
      (∀ p ∈ bl, lookupStr ad p.1 = some p.2) →
      factChangesGo ad bl = [] := by
  intro bl
  induction bl with
  | nil => intro _; rfl
  | cons hd rest ih =>
    intro hp
    obtain ⟨h0, b0⟩ := hd
    have hh : lookupStr ad h0 = some b0 :=
      hp (h0, b0) (List.mem_cons_self _ _)
    simp only [factChangesGo, hh, factChangesForHost_self,
      List.nil_append]
    exact ih (fun p hm => hp p (List.mem_cons_of_mem _ hm))

theorem configChangesForFiles_self {h : String}
    {b : List (String × String)} :
    ∀ (fl : List String), configChangesForFiles h b b fl = [] := by
  intro fl
  induction fl with
  | nil => rfl
  | cons f0 rest ih =>
    simp only [configChangesForFiles, ne_eq, not_true_eq_false, if_false,
      ite_self]
    exact ih

theorem configChangesForHost_self {h : String}
    {b : List (String × String)} : configChangesForHost h b b = [] :=
  configChangesForFiles_self _

theorem configChangesGo_self
    {ad : List (String × List (String × String))} :
    ∀ (bl : List (String × List (String × String))),
      (∀ p ∈ bl, lookupStr ad p.1 = some p.2) →
      configChangesGo ad bl = [] := by
  intro bl
  induction bl with
  | nil => intro _; rfl
  | cons hd rest ih =>
    intro hp
    obtain ⟨h0, b0⟩ := hd
    have hh : lookupStr ad h0 = some b0 :=
      hp (h0, b0) (List.mem_cons_self _ _)
    simp only [configChangesGo, hh, configChangesForHost_self,
      List.nil_append]
    exact ih (fun p hm => hp p (List.mem_cons_of_mem _ hm))

theorem serviceChangesForHost_self {h : String} {b : List String} :
    serviceChangesForHost h b b = [] := by
  have hfil : b.dedup.filter (fun s => ¬ s ∈ b) = [] := by
    rw [List.filter_eq_nil_iff]
    intro x hx
    simp only [decide_not, Bool.not_eq_true', decide_eq_false_iff_not,
      not_not]
    exact List.mem_dedup.mp hx
  simp [serviceChangesForHost, hfil]

theorem serviceChangesGo_self {ad : List (String × List String)} :
    ∀ (bl : List (String × List String)),
      (∀ p ∈ bl, lookupStr ad p.1 = some p.2) →
      serviceChangesGo ad bl = [] := by
  intro bl
  induction bl with
  | nil => intro _; rfl
  | cons hd rest ih =>
    intro hp
    obtain ⟨h0, b0⟩ := hd
    have hh : lookupStr ad h0 = some b0 :=
      hp (h0, b0) (List.mem_cons_self _ _)
    simp only [serviceChangesGo, hh, serviceChangesForHost_self,
      List.nil_append]
    exact ih (fun p hm => hp p (List.mem_cons_of_mem _ hm))

theorem lookup_self_of_nodup {α : Type} {l : List (String × α)}
    (hnd : (keysOf l).Nodup) :
    ∀ p ∈ l, lookupStr l p.1 = some p.2 := by
  intro p hp
  exact lookupStr_eq_some_of_mem (by simpa using hp) hnd

/-- Claim C8 (confirmed): an `added` config change in `Diff(A,B)` is
reported as `removed` for the same host and file (with the hashes
swapped) in `Diff(B,A)` and vice versa; a `started` service change
likewise corresponds to `stopped`; and `Diff(A,A)` has `totalChanges =
0`.  Host stems within one snapshot directory are distinct files on
disk, hence the Nodup hypotheses. -/
theorem diff_symmetry_and_self_zero :
    (∀ (A B : DiffSnapshot) (h f x : String),
        (keysOf (A.configsDir.getD [])).Nodup →
        (keysOf (B.configsDir.getD [])).Nodup →
        (({ host := h, file := f, ctype := "added", beforeHash := none,
              afterHash := some x } : ConfigChange)
            ∈ (compare_snapshots A B).configs.changes ↔
          ({ host := h, file := f, ctype := "removed",
              beforeHash := some x, afterHash := none } : ConfigChange)
            ∈ (compare_snapshots B A).configs.changes)) ∧
    (∀ (A B : DiffSnapshot) (h s : String),
        (keysOf (A.servicesDir.getD [])).Nodup →
        (keysOf (B.servicesDir.getD [])).Nodup →
        (({ host := h, service := s, ctype := "started" } : ServiceChange)
            ∈ (compare_snapshots A B).services.changes ↔
          ({ host := h, service := s, ctype := "stopped" } : ServiceChange)
            ∈ (compare_snapshots B A).services.changes)) ∧
    (∀ A : DiffSnapshot,
        (keysOf (A.factsDir.getD [])).Nodup →
        (keysOf (A.configsDir.getD [])).Nodup →
        (keysOf (A.servicesDir.getD [])).Nodup →
        (compare_snapshots A A).totalChanges = 0) := by
  refine ⟨?_, ?_, ?_⟩
  · intro A B h f x hA hB
    cases hA2 : A.configsDir with
    | none =>
      cases hB2 : B.configsDir with
      | none =>
        simp [compare_snapshots, compare_configs, hA2, hB2]
      | some ad =>
        simp [compare_snapshots, compare_configs, hA2, hB2]
    | some bd =>
      cases hB2 : B.configsDir with
      | none =>
        simp [compare_snapshots, compare_configs, hA2, hB2]
      | some ad =>
        rw [hA2] at hA
        rw [hB2] at hB
        simp only [Option.getD_some] at hA hB
        simp only [compare_snapshots, compare_configs, hA2, hB2]
        constructor
        · intro hmem
          have h1 : mkConfigChange h f none (some x) ∈ configChangesGo ad bd :=
            hmem
          exact configChangesGo_swap hA h1
        · intro hmem
          have h1 : mkConfigChange h f (some x) none ∈ configChangesGo bd ad :=
            hmem
          exact configChangesGo_swap hB h1
  · intro A B h s hA hB
    cases hA2 : A.servicesDir with
    | none =>
      cases hB2 : B.servicesDir with
      | none =>
        simp [compare_snapshots, compare_services, hA2, hB2]
      | some ad =>
        simp [compare_snapshots, compare_services, hA2, hB2]
    | some bd =>
      cases hB2 : B.servicesDir with
      | none =>
        simp [compare_snapshots, compare_services, hA2, hB2]
      | some ad =>
        rw [hA2] at hA
        rw [hB2] at hB
        simp only [Option.getD_some] at hA hB
        simp only [compare_snapshots, compare_services, hA2, hB2]
        constructor
        · intro hmem
          exact serviceChangesGo_swap hA (Or.inl ⟨rfl, rfl⟩) hmem
        · intro hmem
          exact serviceChangesGo_swap hB (Or.inr ⟨rfl, rfl⟩) hmem
  · intro A hFacts hConfigs hServices
    have hf : (compare_facts A.factsDir A.factsDir).changes = [] := by
      cases hA2 : A.factsDir with
      | none => simp [compare_facts]
      | some bd =>
        rw [hA2] at hFacts
        simp only [Option.getD_some] at hFacts
        simp only [compare_facts]
        exact factChangesGo_self bd (lookup_self_of_nodup hFacts)
    have hcfg : (compare_configs A.configsDir A.configsDir).changes = [] := by
      cases hA2 : A.configsDir with
      | none => simp [compare_configs]
      | some bd =>
        rw [hA2] at hConfigs
        simp only [Option.getD_some] at hConfigs
        simp only [compare_configs]
        exact configChangesGo_self bd (lookup_self_of_nodup hConfigs)
    have hsvc : (compare_services A.servicesDir A.servicesDir).changes = [] := by
      cases hA2 : A.servicesDir with
      | none => simp [compare_services]
      | some bd =>
        rw [hA2] at hServices
        simp only [Option.getD_some] at hServices
        simp only [compare_services]
        exact serviceChangesGo_self bd (lookup_self_of_nodup hServices)
    simp [compare_snapshots, hf, hcfg, hsvc]

/-- A snapshot with a single service running. -/
def singleServiceSnapshot : DiffSnapshot :=
  { factsDir := some [("h1", [("ansible_kernel", "5.x")])],
    configsDir := some [("h1", [("f.conf", "x")])],
    servicesDir := some [("h1", ["svc.service"])] }

/-- A snapshot of the same host with no service and an extra config. -/
def noServiceSnapshot : DiffSnapshot :=
  { factsDir := some [("h1", [("ansible_kernel", "5.x")])],
    configsDir := some [("h1", [("f.conf", "x"), ("g.conf", "y")])],
    servicesDir := some [("h1", [])] }

/-- Witness for C8: the symmetry instances and the self-diff zero count
at concrete snapshots. -/
theorem diff_symmetry_and_self_zero_witness :
    (({ host := "h1", file := "g.conf", ctype := "added",
          beforeHash := none, afterHash := some "y" } : ConfigChange)
        ∈ (compare_snapshots singleServiceSnapshot
            noServiceSnapshot).configs.changes ↔
      ({ host := "h1", file := "g.conf", ctype := "removed",
          beforeHash := some "y", afterHash := none } : ConfigChange)
        ∈ (compare_snapshots noServiceSnapshot
            singleServiceSnapshot).configs.changes) ∧
    (({ host := "h1", service := "svc.service", ctype := "started" } :
          ServiceChange)
        ∈ (compare_snapshots noServiceSnapshot
            singleServiceSnapshot).services.changes ↔
      ({ host := "h1", service := "svc.service", ctype := "stopped" } :
          ServiceChange)
        ∈ (compare_snapshots singleServiceSnapshot
            noServiceSnapshot).services.changes) ∧
    (compare_snapshots singleServiceSnapshot
        singleServiceSnapshot).totalChanges = 0 := by
  refine ⟨?_, ?_, ?_⟩
  · exact diff_symmetry_and_self_zero.1 singleServiceSnapshot
      noServiceSnapshot "h1" "g.conf" "y" (by decide) (by decide)
  · exact diff_symmetry_and_self_zero.2.1 noServiceSnapshot
      singleServiceSnapshot "h1" "svc.service" (by decide) (by decide)
  · exact diff_symmetry_and_self_zero.2.2 singleServiceSnapshot
      (by decide) (by decide) (by decide)

end AnsibleAutomation
